import Mathlib

/-!
Shallow embedding of the WiFi connection manager (`wifi_manager.py`) of the
YouTubeMusicPrayerPlayer repository, together with theorems settling the
frozen claims about its specification.

The OS collaborators (`nmcli` subprocess calls) are modelled as an
environment `Env` carrying the outcome of each external command; `none`
models a raised exception (e.g. a timeout), `some` a completed process.
The persistent JSON store and the log of issued connect commands are
threaded explicitly through a state `St`.
-/

namespace WifiMgr

/-- One parsed scan entry, as built by `scan_networks`:
`{"ssid": parts[0], "security": parts[1] or "Open", "signal": parts[2] or "0"}`. -/
structure ScanNet where
  ssid : String
  security : String
  signal : String
deriving DecidableEq, Repr

/-- Python `line.split(':')` on the character level: split at every colon,
keeping empty fields. -/
def splitColsGo : List Char → List Char → List (List Char)
  | [], cur => [cur.reverse]
  | c :: cs, cur =>
    if c = ':' then cur.reverse :: splitColsGo cs [] else splitColsGo cs (c :: cur)

/-- Python `line.split(':')`. -/
def splitOnColon (s : String) : List String :=
  (splitColsGo s.toList []).map List.asString

/-- Strip leading and trailing whitespace from a character list
(Python `str.strip()` as used by `int`). -/
def stripWsChars (cs : List Char) : List Char :=
  ((cs.dropWhile Char.isWhitespace).reverse.dropWhile Char.isWhitespace).reverse

/-- Numeric value of a digit string. -/
def digitsToNat (cs : List Char) : Nat :=
  cs.foldl (fun acc c => acc * 10 + (c.toNat - 48)) 0

/-- Python `int(s)` on a string: optional surrounding whitespace, optional
sign, then a nonempty run of digits; `none` models a raised `ValueError`. -/
def pyInt (s : String) : Option Int :=
  match stripWsChars s.toList with
  | [] => none
  | c :: rest =>
    let signed : Bool × List Char :=
      if c = '-' then (true, rest)
      else if c = '+' then (false, rest) else (false, c :: rest)
    if signed.2 ≠ [] ∧ signed.2.all Char.isDigit then
      some (if signed.1 then -(digitsToNat signed.2 : Int) else (digitsToNat signed.2 : Int))
    else none

/-- The integer signal value of an entry, `int(net["signal"])`.  Scan results
are only produced when every kept line's signal parses, so the `getD 0`
default is never exercised on the success path. -/
def sigVal (n : ScanNet) : Int :=
  (pyInt n.signal).getD 0

/-- Parsing of one raw scan line: the filter
`if line and ':' in line` followed by
`parts = line.split(':'); if len(parts) >= 3 and parts[0]`. -/
def parseScanLine (line : String) : Option ScanNet :=
  if line ≠ "" ∧ ':' ∈ line.toList then
    match splitOnColon line with
    | p0 :: p1 :: p2 :: _ =>
      if p0 ≠ "" then
        some ⟨p0, if p1 = "" then "Open" else p1, if p2 = "" then "0" else p2⟩
      else none
    | _ => none
  else none

/-- One step of the deduplication loop: Python-dict upsert keyed on `ssid`,
replacing the stored entry only when the new signal is strictly greater
(first occurrence keeps its position, as in a CPython 3.7+ dict). -/
def updateAssoc : List ScanNet → ScanNet → List ScanNet
  | [], n => [n]
  | m :: ms, n =>
    if m.ssid = n.ssid then (if sigVal n > sigVal m then n else m) :: ms
    else m :: updateAssoc ms n

/-- The `unique_networks` dict built by the deduplication loop, read out in
insertion order of first occurrence. -/
def dedupe (l : List ScanNet) : List ScanNet :=
  l.foldl updateAssoc []

/-- Descending comparison on signal strength, the key of
`sorted(..., key=lambda x: int(x["signal"]), reverse=True)`. -/
def sigGE (a b : ScanNet) : Prop :=
  sigVal b ≤ sigVal a

instance : DecidableRel sigGE :=
  fun a b => inferInstanceAs (Decidable (sigVal b ≤ sigVal a))

instance : IsTotal ScanNet sigGE :=
  ⟨fun a b => le_total (sigVal b) (sigVal a)⟩

instance : IsTrans ScanNet sigGE :=
  ⟨fun _ _ _ hab hbc => le_trans hbc hab⟩

/-- The body of `scan_networks` applied to the stdout lines: filter and
parse each line, deduplicate by ssid keeping the strongest, sort descending
by signal.  If any kept line's signal field fails to parse as an integer,
`int()` raises inside the dedup comparison or the sort key, the exception
is caught by the enclosing `try`, and the whole scan returns `[]`. -/
def scanParse (ls : List String) : List ScanNet :=
  let kept := ls.filterMap parseScanLine
  if kept.all (fun n => (pyInt n.signal).isSome) then
    List.insertionSort sigGE (dedupe kept)
  else []

/-- Outcome of a completed subprocess: its exit code and stdout lines. -/
structure CmdResult where
  returncode : Int
  stdoutLines : List String
deriving DecidableEq, Repr

/-- Embedding of `scan_networks`: on a raised exception (`none`, e.g. timeout) return
`[]`; on a completed process parse stdout.  The exit code is never
inspected. -/
def scan_networks (res : Option CmdResult) : List ScanNet :=
  match res with
  | none => []
  | some r => scanParse r.stdoutLines

/-- A record of the persistent store:
`{"ssid": str, "password": str|null, "last_used": number}`, where
`last_used` may be absent in an externally produced file. -/
structure NetworkRecord where
  ssid : String
  password : Option String
  last_used : Option Int
deriving DecidableEq, Repr

/-- The persisted configuration `{"networks": [...], "last_connected": ...}`. -/
structure Config where
  networks : List NetworkRecord
  last_connected : Option String
deriving DecidableEq, Repr

/-- Embedding of `save_network`: drop any record with this ssid, append a fresh record
stamped with the current time, and set `last_connected`. -/
def save_network (cfg : Config) (ssid : String) (password : Option String)
    (now : Int) : Config :=
  { networks := cfg.networks.filter (fun n => n.ssid ≠ ssid) ++ [⟨ssid, password, some now⟩],
    last_connected := some ssid }

/-- The sort key `x.get("last_used", 0)`. -/
def recencyKey (r : NetworkRecord) : Int :=
  r.last_used.getD 0

/-- Descending comparison on the recency key. -/
def recGE (a b : NetworkRecord) : Prop :=
  recencyKey b ≤ recencyKey a

instance : DecidableRel recGE :=
  fun a b => inferInstanceAs (Decidable (recencyKey b ≤ recencyKey a))

instance : IsTotal NetworkRecord recGE :=
  ⟨fun a b => le_total (recencyKey b) (recencyKey a)⟩

instance : IsTrans NetworkRecord recGE :=
  ⟨fun _ _ _ hab hbc => le_trans hbc hab⟩

/-- Embedding of `get_saved_networks`: the stored records sorted descending by
`last_used` (missing timestamps default to `0`), stably as in Python's
`sorted(..., reverse=True)`. -/
def get_saved_networks (cfg : Config) : List NetworkRecord :=
  List.insertionSort recGE cfg.networks

/-- The password argument actually placed on the `nmcli` command line:
`if password:` is Python truthiness, so both `None` and `""` select the
open-network command form. -/
def pwArg (password : Option String) : Option String :=
  match password with
  | some s => if s = "" then none else some s
  | none => none

/-- One issued `nmcli dev wifi connect` command: the target ssid and the
password argument, `none` when the open-network form was used. -/
structure ConnectCall where
  ssid : String
  passwordArg : Option String
deriving DecidableEq, Repr

/-- The outside world: outcomes of the OS collaborator calls and the clock.
`connectCode cmd` is the exit code of the connect command (`none` models a
raised exception). -/
structure Env where
  activeCmd : Option (List String)
  scanCmd : Option CmdResult
  connectCode : String → Option String → Option Int
  now : Int

/-- The mutable state threaded through a run: the persistent store plus a
log of the external calls issued. -/
structure St where
  config : Config
  connectCalls : List ConnectCall
  scanCalls : Nat
deriving DecidableEq, Repr

/-- Embedding of `connect_to_network`: issue the connect command; on exit code `0`
persist via `save_network` and report success, otherwise report failure. -/
def connect_to_network (env : Env) (st : St) (ssid : String)
    (password : Option String) : Bool × St :=
  let arg := pwArg password
  let st1 : St := { st with connectCalls := st.connectCalls ++ [⟨ssid, arg⟩] }
  match env.connectCode ssid arg with
  | none => (false, st1)
  | some code =>
    if code = 0 then
      (true, { st1 with config := save_network st1.config ssid password env.now })
    else (false, st1)

/-- Embedding of `connect_to_saved`: look the ssid up in the recency-sorted saved list
and connect with the stored password; report failure when unknown. -/
def connect_to_saved (env : Env) (st : St) (ssid : String) : Bool × St :=
  match (get_saved_networks st.config).find? (fun n => n.ssid == ssid) with
  | some r => connect_to_network env st ssid r.password
  | none => (false, st)

/-- Embedding of `get_current_connection`: first stdout line starting with `"yes:"`,
with the prefix removed; `none` on no match or a raised exception. -/
def get_current_connection (env : Env) : Option String :=
  match env.activeCmd with
  | none => none
  | some ls =>
    match ls.find? (fun l => l.toList.take 4 == ['y', 'e', 's', ':']) with
    | some l => some (l.toList.drop 4).asString
    | none => none

/-- Inner loop of `auto_connect`: walk the live candidates; on an ssid
match attempt `connect_to_saved`, returning on success and continuing with
the remaining live candidates on failure. -/
def tryAvail (env : Env) (ssid : String) : List ScanNet → St → Bool × St
  | [], st => (false, st)
  | a :: rest, st =>
    if a.ssid = ssid then
      match connect_to_saved env st ssid with
      | (true, st1) => (true, st1)
      | (false, st1) => tryAvail env ssid rest st1
    else tryAvail env ssid rest st

/-- Outer loop of `auto_connect`: walk the saved candidates in recency
order, running the inner loop for each. -/
def trySaved (env : Env) : List NetworkRecord → List ScanNet → St → Bool × St
  | [], _, st => (false, st)
  | s :: rest, avail, st =>
    match tryAvail env s.ssid avail st with
    | (true, st1) => (true, st1)
    | (false, st1) => trySaved env rest avail st1

/-- Truthiness of the `current` value in the guard `if current:`: Python
treats both `None` and the empty string as falsy, so a bare `"yes:"`
active line (empty ssid) does not count as connected. -/
def strTruthy (o : Option String) : Bool :=
  match o with
  | some s => ! (s == "")
  | none => false

/-- Embedding of `auto_connect`: if already connected, succeed immediately
(the guard is `if current:`, a truthiness test, so an active network with
an empty-string ssid does not count); otherwise scan, list saved networks
by recency, and run the nested candidate loops. -/
def auto_connect (env : Env) (st : St) : Bool × St :=
  if strTruthy (get_current_connection env) then (true, st)
  else
    let st1 : St := { st with scanCalls := st.scanCalls + 1 }
    let avail := scan_networks env.scanCmd
    trySaved env (get_saved_networks st1.config) avail st1

/-- The environment refuses every connect command (no exit code `0`). -/
def allFail (env : Env) : Prop :=
  ∀ s p, env.connectCode s p ≠ some 0

/-- Environment for the C2 counterexample: every connect command succeeds. -/
def c2Env : Env :=
  ⟨none, none, fun _ _ => some 0, 1000⟩

/-- Fresh empty state. -/
def c2St : St :=
  ⟨⟨[], none⟩, [], 0⟩

/-- Environment for the C4 witness: the query-active command reports an
active network named `Home`. -/
def c4Env : Env :=
  ⟨some ["no:Other", "yes:Home"], none, fun _ _ => none, 0⟩

/-- A state with one saved network, for the C4 witness. -/
def c4St : St :=
  ⟨⟨[⟨"Home", some "pw", some 5⟩], some "Home"⟩, [], 0⟩

/-- Environment for the C4 counterexample: the query-active stdout has a
bare `"yes:"` line, so `get_current_connection` reports an active network
whose ssid is the empty string; the scan raises. -/
def c4CEnv : Env :=
  ⟨some ["yes:"], none, fun _ _ => none, 0⟩

/-- Fresh empty state for the C4 counterexample. -/
def c4CSt : St :=
  ⟨⟨[], none⟩, [], 0⟩

/-- Store for the C6 counterexample: a record carrying a (negative)
timestamp inserted before a record with no timestamp. -/
def c6Cfg : Config :=
  ⟨[⟨"A", none, some (-1)⟩, ⟨"B", none, none⟩], none⟩

/-- Store for the C6 witness: two timestamped records and an
untimestamped one, inserted between them. -/
def c6WCfg : Config :=
  ⟨[⟨"Old", none, some 5⟩, ⟨"X", none, none⟩, ⟨"New", none, some 9⟩], none⟩

/-- Lookup of the entry stored for an ssid (the first, and in a
deduplicated list the only, entry carrying it). -/
def lookupS (l : List ScanNet) (s : String) : Option ScanNet :=
  l.find? (fun n => n.ssid == s)

/-- Folding step on a single dict slot: keep the stored entry unless the
new one is strictly stronger. -/
def maxStep (o : Option ScanNet) (n : ScanNet) : Option ScanNet :=
  match o with
  | none => some n
  | some m => some (if sigVal n > sigVal m then n else m)

/-- Environment for C1: no active connection, a scan seeing `A` and `B`,
and every connect attempt refused with exit code `1`. -/
def c1Env : Env :=
  ⟨none, some ⟨0, ["A:x:50", "B:x:40"]⟩, fun _ _ => some 1, 100⟩

/-- Store for C1: `A` used more recently than `B`. -/
def c1St : St :=
  ⟨⟨[⟨"A", some "pa", some 2⟩, ⟨"B", some "pb", some 1⟩], some "A"⟩, [], 0⟩

/-- Environment for the C3 witness: the spec's precedence example — live
candidates `B` (signal 90) and `A` (signal 40). -/
def c3Env : Env :=
  ⟨none, some ⟨0, ["B:WPA:90", "A:WPA:40"]⟩, fun _ _ => some 1, 100⟩

/-- Store for the C3 witness: `A` (recency 2) more recent than `B`
(recency 1), inserted in the opposite order. -/
def c3St : St :=
  ⟨⟨[⟨"B", some "pb", some 1⟩, ⟨"A", some "pa", some 2⟩], none⟩, [], 0⟩

/-! ## Theorems -/

/-! ### General lemmas about the Connector -/

/-- The function `connect_to_network` always logs exactly one connect command, carrying
the truthiness-filtered password argument. -/
theorem connect_to_network_calls (env : Env) (st : St) (ssid : String)
    (pw : Option String) :
    (connect_to_network env st ssid pw).2.connectCalls
      = st.connectCalls ++ [⟨ssid, pwArg pw⟩] := by
  unfold connect_to_network
  cases h : env.connectCode ssid (pwArg pw) with
  | none => simp [h]
  | some code =>
    by_cases hc : code = 0 <;> simp [h, hc]

/-- Under an all-refusing environment, `connect_to_network` fails and
leaves everything but the call log unchanged. -/
theorem connect_to_network_fail (env : Env) (st : St) (ssid : String)
    (pw : Option String) (h : allFail env) :
    connect_to_network env st ssid pw
      = (false, { st with connectCalls := st.connectCalls ++ [⟨ssid, pwArg pw⟩] }) := by
  unfold connect_to_network
  cases hc : env.connectCode ssid (pwArg pw) with
  | none => simp [hc]
  | some code =>
    have hne : code ≠ 0 := fun h0 => h ssid (pwArg pw) (h0 ▸ hc)
    simp [hc, hne]

/-! ### C2: the Connector's persistence effect -/

/-- C2 counterexample: a successful `connect_to_network` call mutates the
persistent store (it appends a record for the ssid and sets
`last_connected`), contradicting the claim that `connect` never mutates
the store. -/
theorem claim_C2_counterexample :
    (connect_to_network c2Env c2St "Home" (some "pw")).2.config ≠ c2St.config
      ∧ (connect_to_network c2Env c2St "Home" (some "pw")).1 = true := by
  decide

/-- C2 (amended): `connect_to_network` leaves the store unchanged exactly
when the attempt fails; on success it persists the network itself via
`save_network` (the `Connector`, not the `Selector`, performs the write). -/
theorem claim_C2 (env : Env) (st : St) (ssid : String) (pw : Option String) :
    (connect_to_network env st ssid pw).2.config
      = if (connect_to_network env st ssid pw).1 = true
        then save_network st.config ssid pw env.now else st.config := by
  unfold connect_to_network
  cases h : env.connectCode ssid (pwArg pw) with
  | none => simp [h]
  | some code => by_cases hc : code = 0 <;> simp [h, hc]

/-! ### C4: auto-connect is a no-op while already connected -/

/-- C4 counterexample: `get_current_connection` reports an active network
(`some ""`, a non-none value), yet `auto_connect` is not a no-op: the
guard `if current:` treats the empty string as falsy, so the run proceeds
to scan (the scan counter increases) and reports failure. -/
theorem claim_C4_counterexample :
    get_current_connection c4CEnv = some ""
      ∧ auto_connect c4CEnv c4CSt ≠ (true, c4CSt)
      ∧ (auto_connect c4CEnv c4CSt).2.scanCalls = c4CSt.scanCalls + 1 := by
  decide

/-- C4 (amended): when `get_current_connection` reports an active network
with a *non-empty* ssid, `auto_connect` returns success with a completely
unchanged state: no scan call is counted, no connect command is logged,
the store is untouched.  An empty-string ssid is falsy under the guard
`if current:` and does not count as connected (see the counterexample). -/
theorem claim_C4 (env : Env) (st : St) (c : String)
    (h : get_current_connection env = some c) (hc : c ≠ "") :
    auto_connect env st = (true, st) := by
  unfold auto_connect
  rw [h]
  simp [strTruthy, hc]

/-- C4 witness: the amended no-op behavior at the concrete active network
`Home`. -/
theorem claim_C4_witness : auto_connect c4Env c4St = (true, c4St) :=
  claim_C4 c4Env c4St "Home" (by decide) (by decide)

/-! ### C8: the scan exit code is ignored -/

/-- C8 counterexample: the network-listing collaborator exits with code
`1`, yet `scan_networks` still parses its stdout and returns a non-empty
list, contradicting the claim that a nonzero exit yields `[]`. -/
theorem claim_C8_counterexample :
    scan_networks (some ⟨1, ["A:WPA:50"]⟩) = [⟨"A", "WPA", "50"⟩]
      ∧ scan_networks (some ⟨1, ["A:WPA:50"]⟩) ≠ [] := by
  decide

/-- C8 (amended): `scan_networks` never inspects the collaborator's exit
code — the result depends only on stdout; the empty list is guaranteed
only when the collaborator raises (e.g. a timeout), modelled by `none`. -/
theorem claim_C8 (c c' : Int) (ls : List String) :
    scan_networks (some ⟨c, ls⟩) = scan_networks (some ⟨c', ls⟩)
      ∧ scan_networks none = [] :=
  ⟨rfl, rfl⟩

/-! ### C9: empty-string credential behaves as an absent credential -/

/-- C9: `connect_to_network` logs the command it issues; the password
argument placed on the command line is `none` (open-network form) exactly
when the credential is `None` or the empty string, and otherwise is the
credential itself. -/
theorem claim_C9 (env : Env) (st : St) (ssid : String) (pw : Option String) :
    (connect_to_network env st ssid pw).2.connectCalls
        = st.connectCalls ++ [⟨ssid, pwArg pw⟩]
      ∧ (pwArg pw = none ↔ pw = none ∨ pw = some "")
      ∧ (pwArg pw ≠ none → pwArg pw = pw) := by
  refine ⟨connect_to_network_calls env st ssid pw, ?_, ?_⟩ <;>
    cases pw with
    | none => simp [pwArg]
    | some s => by_cases hs : s = "" <;> simp [pwArg, hs]

/-- C9 witness: at credential `""` the open form is used, at `"pw"` the
password form carries the credential. -/
theorem claim_C9_witness :
    (pwArg (some "") = none ↔ (some "" : Option String) = none ∨ some "" = some "")
      ∧ (pwArg (some "pw") ≠ none → pwArg (some "pw") = some "pw") :=
  ⟨(claim_C9 c2Env c2St "X" (some "")).2.1, (claim_C9 c2Env c2St "X" (some "pw")).2.2⟩

/-! ### C6: recency ordering of the saved-network list -/

/-- C6 counterexample: because the sort key defaults a missing `last_used`
to `0`, the untimestamped record `B` sorts *before* the timestamped record
`A` (timestamp `-1`), contradicting the claim that records with no
timestamp appear after every timestamped record in every stored state. -/
theorem claim_C6_counterexample :
    (get_saved_networks c6Cfg).map NetworkRecord.last_used = [none, some (-1)] := by
  decide

/-- C6 (amended): `get_saved_networks` sorts descending by the recency key
(`last_used` defaulted to `0`); provided every stored timestamp is
positive, every record with no timestamp appears after every record that
has one. -/
theorem claim_C6 (cfg : Config)
    (h : ∀ r ∈ cfg.networks, r.last_used = none ∨ 0 < recencyKey r) :
    (get_saved_networks cfg).Pairwise recGE
      ∧ (get_saved_networks cfg).Pairwise
          (fun a b => a.last_used = none → b.last_used = none) := by
  have hs : (get_saved_networks cfg).Pairwise recGE :=
    List.sorted_insertionSort recGE cfg.networks
  refine ⟨hs, hs.imp_of_mem ?_⟩
  intro a b _ hb hr hnone
  have hb' : b ∈ cfg.networks :=
    (List.perm_insertionSort recGE cfg.networks).mem_iff.mp hb
  rcases h b hb' with hbnone | hbpos
  · exact hbnone
  · exfalso
    have h2 : recencyKey b ≤ recencyKey a := hr
    simp only [recencyKey, hnone, Option.getD_none] at h2 hbpos
    omega

/-- C6 witness: the amended ordering at a concrete store with positive
timestamps. -/
theorem claim_C6_witness :
    (get_saved_networks c6WCfg).Pairwise recGE
      ∧ (get_saved_networks c6WCfg).Pairwise
          (fun a b => a.last_used = none → b.last_used = none) :=
  claim_C6 c6WCfg (by decide)

/-! ### C7: malformed scan lines -/

/-- C7 counterexample: a single line with a non-numeric signal field makes
the whole scan return `[]` — the well-formed `Home` line is *not*
preserved, contradicting the claim that a malformed line is discarded
individually without aborting processing. -/
theorem claim_C7_counterexample :
    scanParse ["Home:WPA2:70", "Bad:WPA:notanumber"] = []
      ∧ parseScanLine "Home:WPA2:70" = some ⟨"Home", "WPA2", "70"⟩ := by
  decide

/-- C7 (amended): a *structurally* malformed line (empty, no colon, fewer
than three fields, or empty ssid — i.e. one the line parser rejects) is
discarded individually and does not affect the entries parsed from the
remaining lines; a kept line whose signal field is non-numeric instead
empties the whole result, as the counterexample shows. -/
theorem claim_C7 (l1 l2 : List String) (bad : String)
    (h : parseScanLine bad = none) :
    scanParse (l1 ++ bad :: l2) = scanParse (l1 ++ l2) := by
  unfold scanParse
  simp [List.filterMap_append, List.filterMap_cons, h]

/-- C7 witness: dropping a colon-free garbage line between two well-formed
ones leaves the scan result unchanged. -/
theorem claim_C7_witness :
    scanParse (["A:x:50"] ++ "garbage line" :: ["B:y:60"])
      = scanParse (["A:x:50"] ++ ["B:y:60"]) :=
  claim_C7 ["A:x:50"] ["B:y:60"] "garbage line" (by decide)

/-! ### C5: scan parse shape (counterexample part) -/

/-- C5 counterexample: on raw output mixing a well-formed `Cafe` line with
a line whose signal is non-numeric, `scan_networks` returns `[]`, so it
does *not* contain one entry per unique ssid of the parsed lines. -/
theorem claim_C5_counterexample :
    scanParse ["Cafe::80", "Dup:WPA:bad"] = []
      ∧ parseScanLine "Cafe::80" = some ⟨"Cafe", "Open", "80"⟩ := by
  decide

/-! ### The deduplication dict, observed through ssid lookup -/

theorem lookupS_updateAssoc (acc : List ScanNet) (n : ScanNet) (s : String) :
    lookupS (updateAssoc acc n) s
      = if n.ssid = s then maxStep (lookupS acc s) n else lookupS acc s := by
  induction acc with
  | nil =>
    by_cases h : n.ssid = s <;> simp [updateAssoc, lookupS, maxStep, h]
  | cons m ms ih =>
    simp only [updateAssoc]
    by_cases hmn : m.ssid = n.ssid
    · rw [if_pos hmn]
      by_cases hs : n.ssid = s
      · have hm : m.ssid = s := hmn.trans hs
        by_cases hgt : sigVal n > sigVal m
        · rw [if_pos hgt]
          simp [lookupS, List.find?_cons, hgt, hs, hm, maxStep]
        · rw [if_neg hgt]
          simp [lookupS, List.find?_cons, hgt, hs, hm, maxStep]
      · have hm : ¬ m.ssid = s := fun hc => hs (hmn.symm.trans hc)
        by_cases hgt : sigVal n > sigVal m
        · rw [if_pos hgt]
          simp [lookupS, List.find?_cons, hs, hm]
        · rw [if_neg hgt]
          simp [lookupS, List.find?_cons, hs, hm]
    · rw [if_neg hmn]
      by_cases hm : m.ssid = s
      · have hns : ¬ n.ssid = s := fun hc => hmn (hm.trans hc.symm)
        simp [lookupS, List.find?_cons, hm, hns]
      · have hmb : (m.ssid == s) = false := by simp [hm]
        simp only [lookupS, List.find?_cons, hmb]
        simpa [lookupS] using ih

theorem lookupS_foldl (xs : List ScanNet) (acc : List ScanNet) (s : String) :
    lookupS (xs.foldl updateAssoc acc) s
      = (xs.filter (fun n => n.ssid == s)).foldl maxStep (lookupS acc s) := by
  induction xs generalizing acc with
  | nil => rfl
  | cons n xs ih =>
    rw [List.foldl_cons, ih, lookupS_updateAssoc]
    by_cases h : n.ssid = s
    · rw [if_pos h, List.filter_cons_of_pos (by simp [h]), List.foldl_cons]
    · rw [if_neg h, List.filter_cons_of_neg (by simp [h])]

theorem updateAssoc_map_ssid (acc : List ScanNet) (n : ScanNet) :
    (updateAssoc acc n).map ScanNet.ssid
      = if n.ssid ∈ acc.map ScanNet.ssid then acc.map ScanNet.ssid
        else acc.map ScanNet.ssid ++ [n.ssid] := by
  induction acc with
  | nil => simp [updateAssoc]
  | cons m ms ih =>
    by_cases hmn : m.ssid = n.ssid
    · simp only [updateAssoc, if_pos hmn, List.map_cons]
      by_cases hgt : sigVal n > sigVal m
      · rw [if_pos hgt,
          if_pos (show n.ssid ∈ m.ssid :: List.map ScanNet.ssid ms from by simp [hmn.symm])]
        simp [hmn]
      · rw [if_neg hgt,
          if_pos (show n.ssid ∈ m.ssid :: List.map ScanNet.ssid ms from by simp [hmn.symm])]
    · simp only [updateAssoc, if_neg hmn, List.map_cons, ih]
      by_cases hmem : n.ssid ∈ ms.map ScanNet.ssid
      · rw [if_pos hmem, if_pos (by simp [hmem])]
      · have hnot : ¬ n.ssid ∈ m.ssid :: ms.map ScanNet.ssid := by
          simp only [List.mem_cons]
          rintro (h | h)
          · exact hmn h.symm
          · exact hmem h
        rw [if_neg hmem, if_neg hnot]
        simp

theorem foldl_updateAssoc_nodup (xs : List ScanNet) (acc : List ScanNet)
    (h : (acc.map ScanNet.ssid).Nodup) :
    ((xs.foldl updateAssoc acc).map ScanNet.ssid).Nodup := by
  induction xs generalizing acc with
  | nil => exact h
  | cons n xs ih =>
    rw [List.foldl_cons]
    refine ih _ ?_
    rw [updateAssoc_map_ssid]
    by_cases hmem : n.ssid ∈ acc.map ScanNet.ssid
    · rwa [if_pos hmem]
    · rw [if_neg hmem]
      simp [List.nodup_append, h, hmem]

theorem foldl_updateAssoc_mem_ssid (xs : List ScanNet) (acc : List ScanNet) (s : String) :
    s ∈ (xs.foldl updateAssoc acc).map ScanNet.ssid
      ↔ s ∈ acc.map ScanNet.ssid ∨ s ∈ xs.map ScanNet.ssid := by
  induction xs generalizing acc with
  | nil => simp
  | cons n xs ih =>
    rw [List.foldl_cons, ih, updateAssoc_map_ssid]
    by_cases hmem : n.ssid ∈ acc.map ScanNet.ssid
    · rw [if_pos hmem]
      simp only [List.map_cons, List.mem_cons]
      constructor
      · tauto
      · rintro (h | h | h)
        · tauto
        · exact Or.inl (h ▸ hmem)
        · tauto
    · rw [if_neg hmem]
      simp only [List.mem_append, List.map_cons, List.mem_cons, List.mem_singleton]
      tauto

theorem updateAssoc_subset (acc : List ScanNet) (n : ScanNet) :
    ∀ x ∈ updateAssoc acc n, x ∈ acc ∨ x = n := by
  induction acc with
  | nil => simp [updateAssoc]
  | cons m ms ih =>
    intro x hx
    by_cases hmn : m.ssid = n.ssid
    · simp only [updateAssoc, if_pos hmn, List.mem_cons] at hx
      rcases hx with hx | hx
      · by_cases hgt : sigVal n > sigVal m
        · rw [if_pos hgt] at hx; exact Or.inr hx
        · rw [if_neg hgt] at hx; exact Or.inl (by simp [hx])
      · exact Or.inl (by simp [hx])
    · simp only [updateAssoc, if_neg hmn, List.mem_cons] at hx
      rcases hx with hx | hx
      · exact Or.inl (by simp [hx])
      · rcases ih x hx with h | h
        · exact Or.inl (by simp [h])
        · exact Or.inr h

theorem foldl_updateAssoc_subset (xs : List ScanNet) (acc : List ScanNet) :
    ∀ x ∈ xs.foldl updateAssoc acc, x ∈ acc ∨ x ∈ xs := by
  induction xs generalizing acc with
  | nil => intro x hx; exact Or.inl hx
  | cons n xs ih =>
    intro x hx
    rw [List.foldl_cons] at hx
    rcases ih _ x hx with h | h
    · rcases updateAssoc_subset acc n x h with h' | h'
      · exact Or.inl h'
      · exact Or.inr (by simp [h'])
    · exact Or.inr (by simp [h])

theorem foldl_maxStep_ge (l : List ScanNet) (o : Option ScanNet) (r : ScanNet)
    (h : l.foldl maxStep o = some r) :
    (∀ x ∈ l, sigVal x ≤ sigVal r) ∧ (∀ m, o = some m → sigVal m ≤ sigVal r) := by
  induction l generalizing o with
  | nil =>
    refine ⟨by simp, fun m hm => ?_⟩
    rw [List.foldl_nil] at h
    rw [hm] at h
    cases h
    exact le_refl _
  | cons n xs ih =>
    rw [List.foldl_cons] at h
    obtain ⟨ih1, ih2⟩ := ih (maxStep o n) h
    have hn : sigVal n ≤ sigVal r := by
      cases o with
      | none => exact ih2 n rfl
      | some m =>
        by_cases hgt : sigVal n > sigVal m
        · exact ih2 _ (by simp [maxStep, hgt])
        · exact le_trans (le_of_not_lt hgt) (ih2 _ (by simp [maxStep, hgt]))
    refine ⟨?_, fun m hm => ?_⟩
    · intro x hx
      rcases List.mem_cons.mp hx with hx | hx
      · exact hx ▸ hn
      · exact ih1 x hx
    · subst hm
      by_cases hgt : sigVal n > sigVal m
      · exact le_trans (le_of_lt hgt) (ih2 _ (by simp [maxStep, hgt]))
      · exact ih2 _ (by simp [maxStep, hgt])

/-- Helper: `find?` returns the designated element when it is the unique one
satisfying the predicate. -/
theorem find?_eq_of_unique {l : List ScanNet} {s : String} {a : ScanNet}
    (ha : a ∈ l) (has : a.ssid = s)
    (huniq : ∀ x ∈ l, x.ssid = s → x = a) :
    l.find? (fun n => n.ssid == s) = some a := by
  induction l with
  | nil => cases ha
  | cons x xs ih =>
    by_cases hx : x.ssid = s
    · rw [List.find?_cons_of_pos _ (by simp [hx])]
      exact congrArg some (huniq x (by simp) hx)
    · rw [List.find?_cons_of_neg _ (by simp [hx])]
      have ha' : a ∈ xs := by
        rcases List.mem_cons.mp ha with h | h
        · exact absurd (h ▸ has) hx
        · exact h
      exact ih ha' (fun y hy hys => huniq y (by simp [hy]) hys)

theorem scanParse_eq_of_all_parse (ls : List String)
    (h : (ls.filterMap parseScanLine).all (fun n => (pyInt n.signal).isSome) = true) :
    scanParse ls = List.insertionSort sigGE (dedupe (ls.filterMap parseScanLine)) := by
  unfold scanParse
  rw [if_pos h]

/-- C5 (amended): provided every kept line's signal field parses as an
integer (otherwise `scan_networks` returns `[]`, see the counterexample),
the scan result (i) carries no duplicate ssid, (ii) has exactly the ssids
of the parsed lines, (iii) consists of parsed entries whose signal is
maximal among the same-ssid parsed entries, and (iv) is sorted descending
by signal strength. -/
theorem claim_C5 (ls : List String)
    (h : (ls.filterMap parseScanLine).all (fun n => (pyInt n.signal).isSome) = true) :
    ((scanParse ls).map ScanNet.ssid).Nodup
      ∧ (∀ s, s ∈ (scanParse ls).map ScanNet.ssid
            ↔ s ∈ (ls.filterMap parseScanLine).map ScanNet.ssid)
      ∧ (∀ n ∈ scanParse ls, n ∈ ls.filterMap parseScanLine
          ∧ ∀ m ∈ ls.filterMap parseScanLine, m.ssid = n.ssid → sigVal m ≤ sigVal n)
      ∧ (scanParse ls).Pairwise sigGE := by
  have hsp := scanParse_eq_of_all_parse ls h
  have hperm : List.Perm (List.insertionSort sigGE (dedupe (ls.filterMap parseScanLine)))
      (dedupe (ls.filterMap parseScanLine)) :=
    List.perm_insertionSort sigGE (dedupe (ls.filterMap parseScanLine))
  have hnd : ((dedupe (ls.filterMap parseScanLine)).map ScanNet.ssid).Nodup :=
    foldl_updateAssoc_nodup (ls.filterMap parseScanLine) [] (by simp)
  refine ⟨?_, ?_, ?_, ?_⟩
  · rw [hsp]
    exact (hperm.map ScanNet.ssid).nodup_iff.mpr hnd
  · intro s
    rw [hsp, (hperm.map ScanNet.ssid).mem_iff]
    have := foldl_updateAssoc_mem_ssid (ls.filterMap parseScanLine) [] s
    rw [dedupe] at *
    simpa using this
  · intro n hn
    rw [hsp] at hn
    have hdd : n ∈ dedupe (ls.filterMap parseScanLine) := hperm.mem_iff.mp hn
    have hmem : n ∈ ls.filterMap parseScanLine := by
      rcases foldl_updateAssoc_subset (ls.filterMap parseScanLine) [] n hdd with h' | h'
      · cases h'
      · exact h'
    refine ⟨hmem, ?_⟩
    intro m hm hms
    have hl : lookupS (dedupe (ls.filterMap parseScanLine)) n.ssid = some n := by
      refine find?_eq_of_unique hdd rfl ?_
      intro x hx hxs
      exact List.inj_on_of_nodup_map hnd hx hdd hxs
    rw [dedupe, lookupS_foldl] at hl
    have hmf : m ∈ (ls.filterMap parseScanLine).filter (fun x => x.ssid == n.ssid) := by
      rw [List.mem_filter]
      exact ⟨hm, by simp [hms]⟩
    exact (foldl_maxStep_ge _ (lookupS [] n.ssid) n hl).1 m hmf
  · rw [hsp]
    exact List.sorted_insertionSort sigGE (dedupe (ls.filterMap parseScanLine))

/-- C5 witness: the amended properties at a concrete raw scan output with
a duplicated ssid. -/
theorem claim_C5_witness :
    ((scanParse ["Home:WPA2:70", "Cafe::80", "Home:WPA:95"]).map ScanNet.ssid).Nodup
      ∧ (∀ s, s ∈ (scanParse ["Home:WPA2:70", "Cafe::80", "Home:WPA:95"]).map ScanNet.ssid
            ↔ s ∈ ((["Home:WPA2:70", "Cafe::80", "Home:WPA:95"] : List String).filterMap
                parseScanLine).map ScanNet.ssid)
      ∧ (∀ n ∈ scanParse ["Home:WPA2:70", "Cafe::80", "Home:WPA:95"],
          n ∈ (["Home:WPA2:70", "Cafe::80", "Home:WPA:95"] : List String).filterMap parseScanLine
          ∧ ∀ m ∈ (["Home:WPA2:70", "Cafe::80", "Home:WPA:95"] : List String).filterMap
              parseScanLine, m.ssid = n.ssid → sigVal m ≤ sigVal n)
      ∧ (scanParse ["Home:WPA2:70", "Cafe::80", "Home:WPA:95"]).Pairwise sigGE :=
  claim_C5 ["Home:WPA2:70", "Cafe::80", "Home:WPA:95"] (by decide)

/-! ### C10: signal ties keep the earlier scan line -/

/-- C10: when exactly two parsed lines share an ssid and their signal
values are equal, the entry present in the scan result for that ssid
(security field included) is the one from the earlier line: deduplication
replaces only on strictly greater signal. -/
theorem claim_C10 (ls : List String) (a b : ScanNet)
    (h : (ls.filterMap parseScanLine).all (fun n => (pyInt n.signal).isSome) = true)
    (hab : (ls.filterMap parseScanLine).filter (fun x => x.ssid == a.ssid) = [a, b])
    (heq : sigVal a = sigVal b) :
    (scanParse ls).find? (fun n => n.ssid == a.ssid) = some a := by
  have hsp := scanParse_eq_of_all_parse ls h
  have hperm : List.Perm (List.insertionSort sigGE (dedupe (ls.filterMap parseScanLine)))
      (dedupe (ls.filterMap parseScanLine)) :=
    List.perm_insertionSort sigGE (dedupe (ls.filterMap parseScanLine))
  have hnd : ((dedupe (ls.filterMap parseScanLine)).map ScanNet.ssid).Nodup :=
    foldl_updateAssoc_nodup (ls.filterMap parseScanLine) [] (by simp)
  have hl : lookupS (dedupe (ls.filterMap parseScanLine)) a.ssid = some a := by
    rw [dedupe, lookupS_foldl, hab]
    have : ¬ sigVal b > sigVal a := by omega
    simp [lookupS, maxStep, this]
  have hdd : a ∈ dedupe (ls.filterMap parseScanLine) :=
    List.mem_of_find?_eq_some hl
  rw [hsp]
  refine find?_eq_of_unique (hperm.mem_iff.mpr hdd) rfl ?_
  intro x hx hxs
  have hx' : x ∈ dedupe (ls.filterMap parseScanLine) := hperm.mem_iff.mp hx
  exact List.inj_on_of_nodup_map hnd hx' hdd hxs

/-- C10 witness: two lines for `Net` tie at signal `50`; the kept entry is
the earlier one, with its `WPA` security descriptor. -/
theorem claim_C10_witness :
    (scanParse ["Net:WPA:50", "Other:x:60", "Net:WEP:50"]).find?
        (fun n => n.ssid == (⟨"Net", "WPA", "50"⟩ : ScanNet).ssid)
      = some ⟨"Net", "WPA", "50"⟩ :=
  claim_C10 ["Net:WPA:50", "Other:x:60", "Net:WEP:50"] ⟨"Net", "WPA", "50"⟩ ⟨"Net", "WEP", "50"⟩
    (by decide) (by decide) (by decide)

/-! ### The auto-connect loops under an all-refusing environment -/

theorem connect_to_saved_fail (env : Env) (st : St) (ssid : String)
    (hf : allFail env)
    (hmem : ssid ∈ (get_saved_networks st.config).map NetworkRecord.ssid) :
    ∃ p, connect_to_saved env st ssid
      = (false, { st with connectCalls := st.connectCalls ++ [⟨ssid, p⟩] }) := by
  obtain ⟨r, hrmem, hrs⟩ := List.mem_map.mp hmem
  have hsome : ((get_saved_networks st.config).find? (fun n => n.ssid == ssid)).isSome := by
    rw [List.find?_isSome]
    exact ⟨r, hrmem, by simp [hrs]⟩
  obtain ⟨r', hr'⟩ := Option.isSome_iff_exists.mp hsome
  refine ⟨pwArg r'.password, ?_⟩
  unfold connect_to_saved
  rw [hr']
  exact connect_to_network_fail env st ssid r'.password hf

theorem tryAvail_fail (env : Env) (ssid : String) (avail : List ScanNet) (st : St)
    (hf : allFail env)
    (hmem : ssid ∈ (get_saved_networks st.config).map NetworkRecord.ssid) :
    ∃ t, tryAvail env ssid avail st
        = (false, { st with connectCalls := st.connectCalls ++ t })
      ∧ t.map ConnectCall.ssid
        = (avail.filter (fun a => a.ssid == ssid)).map (fun _ => ssid) := by
  induction avail generalizing st with
  | nil => exact ⟨[], by simp [tryAvail], by simp⟩
  | cons a rest ih =>
    by_cases ha : a.ssid = ssid
    · obtain ⟨p, hcs⟩ := connect_to_saved_fail env st ssid hf hmem
      obtain ⟨t, ht, htm⟩ :=
        ih ({ st with connectCalls := st.connectCalls ++ [⟨ssid, p⟩] }) hmem
      refine ⟨⟨ssid, p⟩ :: t, ?_, ?_⟩
      · simp only [tryAvail, if_pos ha]
        rw [hcs]
        exact ht.trans (by simp)
      · rw [List.filter_cons_of_pos (by simp [ha])]
        simp [htm]
    · obtain ⟨t, ht, htm⟩ := ih st hmem
      refine ⟨t, ?_, ?_⟩
      · simp only [tryAvail, if_neg ha]
        exact ht
      · rw [List.filter_cons_of_neg (by simp [ha])]
        exact htm

theorem trySaved_fail (env : Env) (saved : List NetworkRecord) (avail : List ScanNet)
    (st : St) (hf : allFail env)
    (hsub : ∀ x ∈ saved, x.ssid ∈ (get_saved_networks st.config).map NetworkRecord.ssid) :
    ∃ t, trySaved env saved avail st
        = (false, { st with connectCalls := st.connectCalls ++ t })
      ∧ t.map ConnectCall.ssid
        = saved.flatMap
            (fun s => (avail.filter (fun a => a.ssid == s.ssid)).map (fun _ => s.ssid)) := by
  induction saved generalizing st with
  | nil => exact ⟨[], by simp [trySaved], by simp⟩
  | cons s rest ih =>
    obtain ⟨t1, ht1, ht1m⟩ := tryAvail_fail env s.ssid avail st hf (hsub s (by simp))
    obtain ⟨t2, ht2, ht2m⟩ :=
      ih ({ st with connectCalls := st.connectCalls ++ t1 })
        (fun x hx => hsub x (by simp [hx]))
    refine ⟨t1 ++ t2, ?_, ?_⟩
    · simp only [trySaved]
      rw [ht1]
      exact ht2.trans (by simp)
    · simp [ht1m, ht2m]

/-! ### C1: behavior after a failed first candidate -/

/-- C1 counterexample: the first candidate `A` is attempted and fails, yet
`auto_connect` issues a second connect command (for `B`) before reporting
failure — it does fall through to the next candidate, contradicting the
claimed single-attempt behavior. -/
theorem claim_C1_counterexample :
    ((auto_connect c1Env c1St).2.connectCalls).map ConnectCall.ssid = ["A", "B"]
      ∧ (auto_connect c1Env c1St).1 = false := by
  decide

/-- C1 (amended): when every connect attempt fails, `auto_connect` does
*not* stop after the first candidate: it attempts, in recency order, every
saved network once per matching live candidate, and reports failure only
after all of them have been tried. -/
theorem claim_C1 (env : Env) (st : St)
    (hf : allFail env)
    (hcur : get_current_connection env = none)
    (hcalls : st.connectCalls = []) :
    (auto_connect env st).1 = false
      ∧ ((auto_connect env st).2.connectCalls).map ConnectCall.ssid
        = (get_saved_networks st.config).flatMap
            (fun s => ((scan_networks env.scanCmd).filter
                (fun a => a.ssid == s.ssid)).map (fun _ => s.ssid)) := by
  have hstep : auto_connect env st
      = trySaved env (get_saved_networks st.config) (scan_networks env.scanCmd)
          ({ st with scanCalls := st.scanCalls + 1 }) := by
    unfold auto_connect
    rw [hcur]
    rfl
  obtain ⟨t, ht, htm⟩ :=
    trySaved_fail env (get_saved_networks st.config) (scan_networks env.scanCmd)
      ({ st with scanCalls := st.scanCalls + 1 }) hf
      (fun x hx => List.mem_map_of_mem NetworkRecord.ssid hx)
  rw [hstep, ht]
  simp [hcalls, htm]

/-- C1 witness: with both saved candidates visible and all attempts
refused, the attempted ssids are exactly `A` then `B`. -/
theorem claim_C1_witness :
    (auto_connect c1Env c1St).1 = false
      ∧ ((auto_connect c1Env c1St).2.connectCalls).map ConnectCall.ssid
        = (get_saved_networks c1St.config).flatMap
            (fun s => ((scan_networks c1Env.scanCmd).filter
                (fun a => a.ssid == s.ssid)).map (fun _ => s.ssid)) :=
  claim_C1 c1Env c1St (fun s p h => absurd (Option.some.inj h) (by decide))
    rfl rfl

/-! ### The auto-connect loops: which candidate is attempted first -/

theorem tryAvail_no_match (env : Env) (ssid : String) (avail : List ScanNet) (st : St)
    (h : ∀ a ∈ avail, ¬ a.ssid = ssid) :
    tryAvail env ssid avail st = (false, st) := by
  induction avail with
  | nil => rfl
  | cons a rest ih =>
    simp only [tryAvail, if_neg (h a (by simp))]
    exact ih (fun x hx => h x (by simp [hx]))

theorem connect_to_saved_calls (env : Env) (st : St) (ssid : String) :
    ∃ t, (connect_to_saved env st ssid).2.connectCalls = st.connectCalls ++ t := by
  unfold connect_to_saved
  cases h : (get_saved_networks st.config).find? (fun n => n.ssid == ssid) with
  | none => exact ⟨[], by simp⟩
  | some r => exact ⟨[⟨ssid, pwArg r.password⟩], connect_to_network_calls env st ssid r.password⟩

theorem tryAvail_calls (env : Env) (ssid : String) (avail : List ScanNet) (st : St) :
    ∃ t, (tryAvail env ssid avail st).2.connectCalls = st.connectCalls ++ t := by
  induction avail generalizing st with
  | nil => exact ⟨[], by simp [tryAvail]⟩
  | cons a rest ih =>
    by_cases ha : a.ssid = ssid
    · simp only [tryAvail, if_pos ha]
      obtain ⟨t1, ht1⟩ := connect_to_saved_calls env st ssid
      rcases hcs : connect_to_saved env st ssid with ⟨ok, st1⟩
      rw [hcs] at ht1
      cases ok
      · obtain ⟨t2, ht2⟩ := ih st1
        exact ⟨t1 ++ t2, by rw [ht2, ht1, List.append_assoc]⟩
      · exact ⟨t1, ht1⟩
    · simp only [tryAvail, if_neg ha]
      exact ih st

theorem trySaved_calls (env : Env) (saved : List NetworkRecord) (avail : List ScanNet)
    (st : St) :
    ∃ t, (trySaved env saved avail st).2.connectCalls = st.connectCalls ++ t := by
  induction saved generalizing st with
  | nil => exact ⟨[], by simp [trySaved]⟩
  | cons s rest ih =>
    simp only [trySaved]
    obtain ⟨t1, ht1⟩ := tryAvail_calls env s.ssid avail st
    rcases hta : tryAvail env s.ssid avail st with ⟨ok, st1⟩
    rw [hta] at ht1
    cases ok
    · obtain ⟨t2, ht2⟩ := ih st1
      exact ⟨t1 ++ t2, by rw [ht2, ht1, List.append_assoc]⟩
    · exact ⟨t1, ht1⟩

theorem tryAvail_first_call (env : Env) (ssid : String) (avail : List ScanNet) (st : St)
    (hmem : ssid ∈ (get_saved_networks st.config).map NetworkRecord.ssid)
    (hmatch : ∃ a ∈ avail, a.ssid = ssid) :
    ∃ p t, (tryAvail env ssid avail st).2.connectCalls
      = st.connectCalls ++ ⟨ssid, p⟩ :: t := by
  induction avail with
  | nil => obtain ⟨a, ha, _⟩ := hmatch; cases ha
  | cons a rest ih =>
    by_cases ha : a.ssid = ssid
    · simp only [tryAvail, if_pos ha]
      obtain ⟨r, hrmem, hrs⟩ := List.mem_map.mp hmem
      have hsome : ((get_saved_networks st.config).find? (fun n => n.ssid == ssid)).isSome := by
        rw [List.find?_isSome]
        exact ⟨r, hrmem, by simp [hrs]⟩
      obtain ⟨r', hr'⟩ := Option.isSome_iff_exists.mp hsome
      have hunfold : connect_to_saved env st ssid = connect_to_network env st ssid r'.password := by
        unfold connect_to_saved
        rw [hr']
      have hcalls1 := connect_to_network_calls env st ssid r'.password
      rcases hres : connect_to_network env st ssid r'.password with ⟨ok, st1⟩
      rw [hres] at hcalls1
      rw [hunfold, hres]
      cases ok
      · obtain ⟨t2, ht2⟩ := tryAvail_calls env ssid rest st1
        exact ⟨pwArg r'.password, t2, by rw [ht2, hcalls1]; simp⟩
      · exact ⟨pwArg r'.password, [], hcalls1⟩
    · simp only [tryAvail, if_neg ha]
      refine ih ?_
      obtain ⟨x, hx, hxs⟩ := hmatch
      rcases List.mem_cons.mp hx with h | h
      · exact absurd (h ▸ hxs) ha
      · exact ⟨x, h, hxs⟩

theorem trySaved_first_call (env : Env) (saved : List NetworkRecord)
    (avail : List ScanNet) (st : St) (sWin : NetworkRecord)
    (hsub : ∀ x ∈ saved, x.ssid ∈ (get_saved_networks st.config).map NetworkRecord.ssid)
    (hfind : saved.find? (fun s => avail.any (fun a => a.ssid == s.ssid)) = some sWin) :
    ∃ p t, (trySaved env saved avail st).2.connectCalls
      = st.connectCalls ++ ⟨sWin.ssid, p⟩ :: t := by
  induction saved with
  | nil => cases hfind
  | cons s rest ih =>
    by_cases hany : avail.any (fun a => a.ssid == s.ssid) = true
    · rw [List.find?_cons_of_pos (p := fun s => avail.any (fun a => a.ssid == s.ssid)) rest hany] at hfind
      have hsw : s = sWin := Option.some.inj hfind
      subst hsw
      simp only [trySaved]
      obtain ⟨p, t1, ht1⟩ := tryAvail_first_call env s.ssid avail st (hsub s (by simp)) (by
        obtain ⟨a, ha, has⟩ := List.any_eq_true.mp hany
        exact ⟨a, ha, by simpa using has⟩)
      rcases hta : tryAvail env s.ssid avail st with ⟨ok, st1⟩
      rw [hta] at ht1
      cases ok
      · obtain ⟨t2, ht2⟩ := trySaved_calls env rest avail st1
        exact ⟨p, t1 ++ t2, by rw [ht2, ht1]; simp⟩
      · exact ⟨p, t1, ht1⟩
    · rw [List.find?_cons_of_neg (p := fun s => avail.any (fun a => a.ssid == s.ssid)) rest hany] at hfind
      have hno : ∀ a ∈ avail, ¬ a.ssid = s.ssid := by
        intro a ha hcontra
        exact hany (List.any_eq_true.mpr ⟨a, ha, by simp [hcontra]⟩)
      simp only [trySaved]
      rw [tryAvail_no_match env s.ssid avail st hno]
      exact ih (fun x hx => hsub x (by simp [hx])) hfind

/-! ### C3: recency beats signal in candidate selection -/

/-- C3: the first connect command `auto_connect` issues targets the first
record of the recency-sorted saved list that has any ssid match among the
live scan results — candidate order is recency order, not signal order. -/
theorem claim_C3 (env : Env) (st : St) (sWin : NetworkRecord)
    (hcur : get_current_connection env = none)
    (hcalls : st.connectCalls = [])
    (hfind : (get_saved_networks st.config).find?
        (fun s => (scan_networks env.scanCmd).any (fun a => a.ssid == s.ssid)) = some sWin) :
    ∃ p t, (auto_connect env st).2.connectCalls = ⟨sWin.ssid, p⟩ :: t := by
  have hstep : auto_connect env st
      = trySaved env (get_saved_networks st.config) (scan_networks env.scanCmd)
          ({ st with scanCalls := st.scanCalls + 1 }) := by
    unfold auto_connect
    rw [hcur]
    rfl
  obtain ⟨p, t, ht⟩ :=
    trySaved_first_call env (get_saved_networks st.config) (scan_networks env.scanCmd)
      ({ st with scanCalls := st.scanCalls + 1 }) sWin
      (fun x hx => List.mem_map_of_mem NetworkRecord.ssid hx) hfind
  refine ⟨p, t, ?_⟩
  rw [hstep, ht]
  simp [hcalls]

/-- C3 witness: with saved `[A (recent), B]` and live `[B (90), A (40)]`,
the first connect command targets `A` — recency wins over signal. -/
theorem claim_C3_witness :
    ∃ p t, (auto_connect c3Env c3St).2.connectCalls
      = ⟨(⟨"A", some "pa", some 2⟩ : NetworkRecord).ssid, p⟩ :: t :=
  claim_C3 c3Env c3St ⟨"A", some "pa", some 2⟩ rfl rfl (by decide)

end WifiMgr
